import Mathlib

/-!
Shallow embedding of the checkers rules engine in `src/checkers/internals.py`
(module-level constants, `Piece`, `Board`), together with theorems checking
the specification's claims against it.

Conventions of the embedding:
* squares are pairs of integers `(x, y)`;
* Python dictionaries that are total on their intended key range become Lean
  functions; dictionary lookups that can raise `KeyError` become `Option`
  results inspected at the lookup site;
* Python object identity for `Piece` instances is modelled by a `Nat` id into
  a heap `Nat → PieceState`; attribute mutation is heap update;
* fallible operations return `Except PyErr _`, where `PyErr` records the
  Python exception class raised and its message.
-/

namespace Checkers

/-- The two players, `BLACK = "black"` and `RED = "red"` in the source. -/
inductive Player where
  | black
  | red
deriving DecidableEq, Repr

/-- The module-level `opponent` dictionary. -/
def opponent : Player → Player
  | .black => .red
  | .red => .black

/-- A board coordinate `(x, y)`. -/
abbrev Pos := Int × Int

/-- Python string form of a coordinate tuple, as produced by `'%s' % loc`. -/
def posRepr (p : Pos) : String :=
  "(" ++ toString p.1 ++ ", " ++ toString p.2 ++ ")"

/-- Exception classes that the source can raise.  `chess` is the base
`ChessException`; `invalidMove` and `invalidPlacement` are its two declared
subclasses; the rest are Python built-ins. -/
inductive ExcTy where
  | chess
  | invalidMove
  | invalidPlacement
  | typeError
  | keyError
  | attributeError
deriving DecidableEq, Repr

/-- A raised Python exception: its class and its message. -/
structure PyErr where
  ty : ExcTy
  msg : String
deriving DecidableEq, Repr

/-- The exception class of an `Except` result, if it is an error. -/
def errTy {α : Type} : Except PyErr α → Option ExcTy
  | .error e => some e.ty
  | .ok _ => none

/-- Membership in `Board._usable_positions`, the set comprehension
`set([(x, y) for y in xrange(0, dim) for x in xrange((y + 1) % 2, dim, 2)])`:
both coordinates in range and `x ≡ (y + 1) (mod 2)`. -/
def usable (dim : Int) (p : Pos) : Bool :=
  0 ≤ p.1 && p.1 < dim && 0 ≤ p.2 && p.2 < dim && p.1 % 2 == (p.2 + 1) % 2

/-- Row direction of an ordinary move, `mov_off_y` in `_init_moves`:
BLACK toward increasing `y`, RED toward decreasing `y`. -/
def mov_off_y : Player → Int
  | .black => 1
  | .red => -1

/-- Row direction of a jump, `jmp_off_y` in `_init_moves`. -/
def jmp_off_y : Player → Int
  | .black => 2
  | .red => -2

/-- The entry `_moves[player][pos]` built by `_init_moves`: the candidates
`(pos_x ± 1, pos_y + mov_off_y)` kept when usable.  `_init_moves` only
creates entries for usable `pos`; an unusable key has no entry, rendered
here as the empty list. -/
def movesTbl (dim : Int) (pl : Player) (pos : Pos) : List Pos :=
  if usable dim pos then
    [(-1 : Int), 1].filterMap (fun off_x =>
      let mov := (pos.1 + off_x, pos.2 + mov_off_y pl)
      if usable dim mov then some mov else none)
  else []

/-- The entry `_jumps[player][pos]` built by `_init_moves`: the candidates
`(pos_x ± 2, pos_y + jmp_off_y)` kept when usable. -/
def jumpsTbl (dim : Int) (pl : Player) (pos : Pos) : List Pos :=
  if usable dim pos then
    [(-2 : Int), 2].filterMap (fun off_x =>
      let jmp := (pos.1 + off_x, pos.2 + jmp_off_y pl)
      if usable dim jmp then some jmp else none)
  else []

/-- The entry `_king_moves[pos]`: union of both players' ordinary moves. -/
def kingMovesTbl (dim : Int) (pos : Pos) : List Pos :=
  movesTbl dim .black pos ++ movesTbl dim .red pos

/-- The entry `_king_jumps[pos]`: union of both players' jumps. -/
def kingJumpsTbl (dim : Int) (pos : Pos) : List Pos :=
  jumpsTbl dim .black pos ++ jumpsTbl dim .red pos

/-- Lookup in the `_captures` dictionary.  `_init_moves` stores, for every
usable `pos` and usable jump destination `jmp_loc = (pos_x ± 2, pos_y ± 2)`
(the `y` offset fixed by the player, both players contributing), the value
`mov_loc = (pos_x ± 1, pos_y ± 1)` with the same signs.  A pair that is not
such a jump pair has no entry (`none` here, `KeyError` in Python). -/
def capturesTbl (dim : Int) (s t : Pos) : Option Pos :=
  if usable dim s ∧ usable dim t ∧ (t.1 - s.1 = 2 ∨ t.1 - s.1 = -2) ∧
      (t.2 - s.2 = 2 ∨ t.2 - s.2 = -2) then
    some (s.1 + (t.1 - s.1) / 2, s.2 + (t.2 - s.2) / 2)
  else none

/-- The usable squares as a list, row by row. -/
def usable_positions (dim : Nat) : List Pos :=
  ((List.range dim).flatMap (fun y =>
    (List.range dim).map (fun x => ((x : Int), (y : Int))))).filter (usable dim)

/-- `Board._player_rows`: `(dim - neutral_rows) / 2` with `neutral_rows = 2`
(Python 2 floor division of ints). -/
def player_rows (dim : Int) : Int := (dim - 2) / 2

/-- `Board.start_positions`: BLACK on usable squares with `y < player_rows`,
RED on usable squares with `y ≥ dim - player_rows`. -/
def start_positions (dim : Nat) : List (Player × Int × Int) :=
  ((usable_positions dim).filter (fun p => p.2 < player_rows dim)).map
    (fun p => (Player.black, p.1, p.2)) ++
  ((usable_positions dim).filter (fun p => (dim : Int) - player_rows dim ≤ p.2)).map
    (fun p => (Player.red, p.1, p.2))

/-- Mutable attributes of one `Piece` object: `self.player`, `self.king`,
`self.location` (`none` when unset or captured). -/
structure PieceState where
  player : Player
  king : Bool
  location : Option Pos
deriving DecidableEq, Repr

/-- The argument passed to `Piece.__init__`: either one of the two player
constants or some other value (rendered by its string form). -/
inductive PlayerArg where
  | valid (p : Player)
  | invalid (s : String)

/-- `Piece.__init__`: raises the base `ChessException` if the argument is not
one of the two player constants; otherwise the piece starts non-king with no
location. -/
def piece_init (arg : PlayerArg) : Except PyErr PieceState :=
  match arg with
  | .invalid s => .error ⟨.chess, "invalid player " ++ s⟩
  | .valid p => .ok ⟨p, false, none⟩

/-- Mutable state of a `Board`: the piece heap (object identity as `Nat`),
the per-player piece sets `_player_pieces`, and the location index
`_loc_pieces`.  `dim` is fixed at construction. -/
structure Board where
  dim : Int
  heap : Nat → PieceState
  playerPieces : Player → Finset Nat
  locPieces : Pos → Option Nat

/-- `Board.__getitem__`: the piece at a location via `_loc_pieces`, or
`None`. -/
def Board.getitem (b : Board) (loc : Pos) : Option Nat :=
  b.locPieces loc

/-- `Board._valid_placement`: the location is usable and `self[location]` is
falsy.  (The `piece` parameter of the source is unused.) -/
def Board.valid_placement (b : Board) (loc : Pos) : Bool :=
  usable b.dim loc && (b.getitem loc).isNone

/-- The argument passed to `Board.add_piece`: a `Piece` object or any other
value. -/
inductive AddArg where
  | piece (pid : Nat)
  | nonPiece

/-- The `ChessException` raised by `add_piece` for a non-`Piece` argument. -/
def canOnlyAddErr : PyErr := ⟨.chess, "can only add Pieces"⟩

/-- The `TypeError` raised by evaluating the exception argument
`'can not place piece at %s' % location` on the invalid-placement path of
`add_piece`: the 2-tuple `location` on the right of `%` is unpacked as the
format-argument list, the single `%s` consumes only the first element, and
the formatting raises before any `InvalidPlacementException` is
constructed. -/
def fmtTypeErr : PyErr :=
  ⟨.typeError, "not all arguments converted during string formatting"⟩

/-- `Board.add_piece`: rejects non-`Piece` arguments with the base
`ChessException`; on an invalid placement it raises `TypeError`, because
formatting the message of the intended `InvalidPlacementException` unpacks
the tuple `location` and fails (see `fmtTypeErr`); on success it sets
`piece.location` and adds the piece to `_player_pieces[piece.player]`.
(The source updates no other state: in particular `_loc_pieces` is left
untouched.) -/
def Board.add_piece (b : Board) (arg : AddArg) (loc : Pos) : Except PyErr Board :=
  match arg with
  | .nonPiece => .error canOnlyAddErr
  | .piece pid =>
    if ¬ b.valid_placement loc then .error fmtTypeErr
    else
      let ps := b.heap pid
      .ok { b with
        heap := Function.update b.heap pid { ps with location := some loc },
        playerPieces := fun pl =>
          if pl = ps.player then insert pid (b.playerPieces pl)
          else b.playerPieces pl }

/-- The move table `_valid_move` and `_move_and_capture` select for a piece:
the player's table for a man, `_king_moves` for a king. -/
def Board.applicable_moves (b : Board) (ps : PieceState) (s : Pos) : List Pos :=
  if ps.king then kingMovesTbl b.dim s else movesTbl b.dim ps.player s

/-- The jump table `_valid_move` and `_move_and_capture` select for a piece. -/
def Board.applicable_jumps (b : Board) (ps : PieceState) (s : Pos) : List Pos :=
  if ps.king then kingJumpsTbl b.dim s else jumpsTbl b.dim ps.player s

/-- The `KeyError` raised by the lookup `self._captures[(source, target)]`
when the pair is not a registered jump pair. -/
def keyErrAt (s t : Pos) : PyErr :=
  ⟨.keyError, "(" ++ posRepr s ++ ", " ++ posRepr t ++ ")"⟩

/-- The `AttributeError` raised by evaluating `None.player`. -/
def nonePlayerErr : PyErr :=
  ⟨.attributeError, "NoneType object has no member player"⟩

/-- `Board._valid_move`, statement by statement: returns `False` when the
source is empty or the target occupied; then evaluates
`self._captures[(source, target)]` (possible `KeyError`); then accepts an
ordinary move, or a jump whose capture square holds an opponent piece
(evaluating `self[capture].player`, a possible `AttributeError` on an empty
capture square); otherwise returns `False`. -/
def Board.valid_move (b : Board) (s t : Pos) : Except PyErr Bool :=
  match b.getitem s, b.getitem t with
  | none, _ => .ok false
  | some _, some _ => .ok false
  | some pid, none =>
    let ps := b.heap pid
    match capturesTbl b.dim s t with
    | none => .error (keyErrAt s t)
    | some capture =>
      if t ∈ b.applicable_moves ps s then .ok true
      else if t ∈ b.applicable_jumps ps s then
        match b.getitem capture with
        | none => .error nonePlayerErr
        | some cpid =>
          .ok (decide ((b.heap cpid).player = opponent ps.player))
      else .ok false

/-- The `KeyError` raised by `set.remove` on a missing element. -/
def setRemoveErr : PyErr := ⟨.keyError, "set remove of a missing element"⟩

/-- `Board._move_and_capture`: reads the moving piece (`None.player` raises
if the source is empty), looks up `self._captures[(source, target)]`
(possible `KeyError`), and when the target is in the piece's jump table
removes the captured piece from its player's set, from `_loc_pieces`, and
clears its location; then relocates the mover: pops the source from
`_loc_pieces`, writes the target entry, and sets `piece.location`.  Every
raise point precedes every mutation, so errors return the input state. -/
def Board.move_and_capture (b : Board) (s t : Pos) :
    Except PyErr (Board × Option Nat) :=
  match b.getitem s with
  | none => .error nonePlayerErr
  | some pid =>
    let ps := b.heap pid
    match capturesTbl b.dim s t with
    | none => .error (keyErrAt s t)
    | some capture =>
      let step1 : Except PyErr (Board × Option Nat) :=
        if t ∈ b.applicable_jumps ps s then
          match b.getitem capture with
          | none => .error nonePlayerErr
          | some cpid =>
            let cps := b.heap cpid
            if cpid ∉ b.playerPieces cps.player then .error setRemoveErr
            else
              .ok ({ b with
                playerPieces := fun pl =>
                  if pl = cps.player then (b.playerPieces pl).erase cpid
                  else b.playerPieces pl,
                locPieces := fun p => if p = capture then none else b.locPieces p,
                heap := Function.update b.heap cpid { cps with location := none } },
                some cpid)
        else .ok (b, none)
      match step1 with
      | .error e => .error e
      | .ok (b1, captured) =>
        let ps1 := b1.heap pid
        .ok ({ b1 with
          locPieces := fun p =>
            if p = t then some pid else if p = s then none else b1.locPieces p,
          heap := Function.update b1.heap pid { ps1 with location := some t } },
          captured)

/-- The `TypeError` raised by the call `self._valid_move()` in `Board.move`:
`_valid_move` requires `source` and `target`, and the call passes neither. -/
def typeErrValidMove : PyErr :=
  ⟨.typeError, "valid_move takes exactly 3 arguments, 1 given"⟩

/-- The result of the expression `self._valid_move()` in `Board.move`:
Python raises `TypeError` at the call, before any validation runs. -/
def valid_move_zero_arg_call : Except PyErr Bool := .error typeErrValidMove

/-- The `InvalidMoveException` constructed by `Board.move`. -/
def invalidMoveErrAt (s t : Pos) : PyErr :=
  ⟨.invalidMove, "invalid move from " ++ posRepr s ++ " to " ++ posRepr t⟩

/-- `Board.move`: evaluates `self._valid_move()` — which raises `TypeError`
on every call, so the remaining branches (raising `InvalidMoveException` on
a `False` validation, else running `_move_and_capture`) are dead code.  The
state component of the result is the board as left when the call returns or
raises. -/
def Board.move (b : Board) (s t : Pos) : Board × Except PyErr (Option Nat) :=
  match valid_move_zero_arg_call with
  | .error e => (b, .error e)
  | .ok valid =>
    if !valid then (b, .error (invalidMoveErrAt s t))
    else
      match b.move_and_capture s t with
      | .error e => (b, .error e)
      | .ok (b2, captured) => (b2, .ok captured)

/-- A freshly constructed board of dimension 8: no pieces anywhere. -/
def bEmpty : Board where
  dim := 8
  heap := fun _ => ⟨.black, false, none⟩
  playerPieces := fun _ => ∅
  locPieces := fun _ => none

/-- A dim-8 board with a BLACK man (id 0) at `(1, 0)` and a RED man (id 1)
at `(2, 1)`, both indexed: BLACK can jump `(1,0) → (3,2)` over `(2,1)`. -/
def bTwo : Board where
  dim := 8
  heap := fun i =>
    if i = 0 then ⟨.black, false, some (1, 0)⟩ else ⟨.red, false, some (2, 1)⟩
  playerPieces := fun pl => match pl with | .black => {0} | .red => {1}
  locPieces := fun p =>
    if p = (1, 0) then some 0 else if p = (2, 1) then some 1 else none

/-- A dim-8 board with a RED man (id 0) at `(3, 2)` and a BLACK man (id 1)
at `(2, 1)`: RED can jump `(3,2) → (1,0)` over `(2,1)` into row 0. -/
def bJump : Board where
  dim := 8
  heap := fun i =>
    if i = 0 then ⟨.red, false, some (3, 2)⟩ else ⟨.black, false, some (2, 1)⟩
  playerPieces := fun pl => match pl with | .black => {1} | .red => {0}
  locPieces := fun p =>
    if p = (3, 2) then some 0 else if p = (2, 1) then some 1 else none

/-- A dim-8 board with a single BLACK man (id 0) at `(1, 0)`. -/
def bBlackOne : Board where
  dim := 8
  heap := fun _ => ⟨.black, false, some (1, 0)⟩
  playerPieces := fun pl => match pl with | .black => {0} | .red => ∅
  locPieces := fun p => if p = (1, 0) then some 0 else none

/-! ## Helper lemmas about the geometry tables -/

/-- Unfolding of the usable-square predicate. -/
theorem usable_iff {dim : Int} {p : Pos} :
    usable dim p = true ↔
      0 ≤ p.1 ∧ p.1 < dim ∧ 0 ≤ p.2 ∧ p.2 < dim ∧ p.1 % 2 = (p.2 + 1) % 2 := by
  simp [usable, and_assoc]

/-- Every entry of `_moves[player][pos]` is a usable square one diagonal
step in the player's forward direction, and the key is usable. -/
theorem of_mem_movesTbl {dim : Int} {pl : Player} {s t : Pos}
    (h : t ∈ movesTbl dim pl s) :
    usable dim s = true ∧ usable dim t = true ∧
      (t.1 - s.1 = 1 ∨ t.1 - s.1 = -1) ∧ t.2 - s.2 = mov_off_y pl := by
  unfold movesTbl at h
  by_cases hs : usable dim s
  · rw [if_pos hs, List.mem_filterMap] at h
    obtain ⟨ox, hox, heq⟩ := h
    simp only [List.mem_cons, List.not_mem_nil, or_false] at hox
    dsimp only at heq
    split at heq
    · next hu =>
      obtain rfl : _ = t := Option.some.inj heq
      refine ⟨hs, hu, ?_, ?_⟩ <;> rcases hox with rfl | rfl <;> simp
    · exact absurd heq (by simp)
  · rw [if_neg hs] at h
    exact absurd h (List.not_mem_nil t)

/-- Every entry of `_jumps[player][pos]` is a usable square two diagonal
steps in the player's forward direction, and the key is usable. -/
theorem of_mem_jumpsTbl {dim : Int} {pl : Player} {s t : Pos}
    (h : t ∈ jumpsTbl dim pl s) :
    usable dim s = true ∧ usable dim t = true ∧
      (t.1 - s.1 = 2 ∨ t.1 - s.1 = -2) ∧ t.2 - s.2 = jmp_off_y pl := by
  unfold jumpsTbl at h
  by_cases hs : usable dim s
  · rw [if_pos hs, List.mem_filterMap] at h
    obtain ⟨ox, hox, heq⟩ := h
    simp only [List.mem_cons, List.not_mem_nil, or_false] at hox
    dsimp only at heq
    split at heq
    · next hu =>
      obtain rfl : _ = t := Option.some.inj heq
      refine ⟨hs, hu, ?_, ?_⟩ <;> rcases hox with rfl | rfl <;> simp
    · exact absurd heq (by simp)
  · rw [if_neg hs] at h
    exact absurd h (List.not_mem_nil t)

/-- The forward row offset of an ordinary move is `1` or `-1`. -/
theorem mov_off_y_cases (pl : Player) : mov_off_y pl = 1 ∨ mov_off_y pl = -1 := by
  cases pl <;> simp [mov_off_y]

/-- The forward row offset of a jump is `2` or `-2`. -/
theorem jmp_off_y_cases (pl : Player) : jmp_off_y pl = 2 ∨ jmp_off_y pl = -2 := by
  cases pl <;> simp [jmp_off_y]

/-- Row change of any entry of the move table a piece uses (man or king):
one row. -/
theorem applicable_moves_row {b : Board} {ps : PieceState} {s t : Pos}
    (h : t ∈ b.applicable_moves ps s) : t.2 - s.2 = 1 ∨ t.2 - s.2 = -1 := by
  unfold Board.applicable_moves at h
  split at h
  · rcases List.mem_append.mp h with h' | h' <;>
      rcases of_mem_movesTbl h' with ⟨-, -, -, hy⟩ <;>
      simp [mov_off_y] at hy <;> omega
  · rcases of_mem_movesTbl h with ⟨-, -, -, hy⟩
    rcases mov_off_y_cases ps.player with h1 | h1 <;> rw [h1] at hy <;> omega

/-- Row change of any entry of the jump table a piece uses (man or king):
two rows. -/
theorem applicable_jumps_row {b : Board} {ps : PieceState} {s t : Pos}
    (h : t ∈ b.applicable_jumps ps s) : t.2 - s.2 = 2 ∨ t.2 - s.2 = -2 := by
  unfold Board.applicable_jumps at h
  split at h
  · rcases List.mem_append.mp h with h' | h' <;>
      rcases of_mem_jumpsTbl h' with ⟨-, -, -, hy⟩ <;>
      simp [jmp_off_y] at hy <;> omega
  · rcases of_mem_jumpsTbl h with ⟨-, -, -, hy⟩
    rcases jmp_off_y_cases ps.player with h1 | h1 <;> rw [h1] at hy <;> omega

/-- A pair whose rows differ by one (any ordinary-move pair) has no entry
in the `_captures` dictionary. -/
theorem capturesTbl_eq_none_of_row {dim : Int} {s t : Pos}
    (h : t.2 - s.2 = 1 ∨ t.2 - s.2 = -1) : capturesTbl dim s t = none := by
  unfold capturesTbl
  rw [if_neg]
  rintro ⟨-, -, -, h2⟩
  omega

/-! ## Claims -/

/-- C1: the claim says `move(source, target)` raises `InvalidMove` exactly
when the five-step validation rejects, and otherwise returns the captured
piece or none.  In the source, `move` evaluates `self._valid_move()` with no
arguments, so every call raises `TypeError` before any validation: on
`bTwo`, validation itself (called with its arguments) accepts the jump
`(1,0) → (3,2)`, yet `move` still raises `TypeError` and mutates nothing. -/
theorem c1_move_always_raises_type_error :
    bTwo.valid_move (1, 0) (3, 2) = .ok true ∧
    bTwo.move (1, 0) (3, 2) = (bTwo, .error typeErrValidMove) ∧
    (∀ (b : Board) (s t : Pos), b.move s t = (b, .error typeErrValidMove)) :=
  ⟨rfl, rfl, fun _ _ _ => rfl⟩

/-- C2: the claim says a successful `addPiece(p, L)` registers `p` in both
indexes so that `pieceAt(L)` returns `p`.  In the source, `add_piece` sets
`piece.location` and adds the piece to `_player_pieces[piece.player]` but
never writes `_loc_pieces`, so the immediately following `pieceAt(L)`
(`__getitem__`) returns none instead of the piece. -/
theorem c2_add_piece_skips_location_index :
    ∃ b1, bEmpty.add_piece (.piece 0) (1, 0) = .ok b1 ∧
      (b1.heap 0).location = some (1, 0) ∧
      0 ∈ b1.playerPieces .black ∧
      b1.getitem (1, 0) = none := by
  refine ⟨_, rfl, rfl, ?_, rfl⟩
  decide

/-- C3: the claim says `addPiece` fails with `InvalidPlacement` when some
previously added piece already occupies `L`.  In the source, the occupancy
test `not self[location]` consults `_loc_pieces`, which `add_piece` never
updates, so a second piece is accepted on the very same square. -/
theorem c3_occupied_square_not_rejected :
    ∃ b1 b2, bEmpty.add_piece (.piece 0) (1, 0) = .ok b1 ∧
      (b1.heap 0).location = some (1, 0) ∧
      b1.valid_placement (1, 0) = true ∧
      b1.add_piece (.piece 1) (1, 0) = .ok b2 ∧
      (b2.heap 1).location = some (1, 0) ∧
      (b2.heap 0).location = some (1, 0) :=
  ⟨_, _, rfl, rfl, rfl, rfl, rfl, rfl⟩

/-- C4: the claim says the Board sets a piece's king status when a RED piece
reaches row 0 (or BLACK reaches row `dim-1`).  No statement in the source
ever assigns `piece.king`: executing the move machinery
(`_move_and_capture`) for RED's jump `(3,2) → (1,0)` lands the piece on row
0 with `king` still false — and the public `move` never even gets there,
raising `TypeError` on every call. -/
theorem c4_no_king_promotion :
    ∃ b2, bJump.move_and_capture (3, 2) (1, 0) = .ok (b2, some 1) ∧
      (b2.heap 0).player = .red ∧
      (b2.heap 0).location = some (1, 0) ∧
      (b2.heap 0).king = false ∧
      (bJump.move (3, 2) (1, 0)).2 = .error typeErrValidMove :=
  ⟨_, rfl, rfl, rfl, rfl, rfl⟩

/-- C5: every destination in the precomputed ordinary-move table
`moves[p][s]` of a usable square `s` is a usable square exactly one diagonal
step in `p`'s forward row-direction (BLACK toward increasing `y`, RED toward
decreasing `y`), and the entry is empty on the board edge in that
direction. -/
theorem c5_moves_table_one_forward_diagonal (dim : Int) (pl : Player)
    (s t : Pos) (hs : usable dim s = true) :
    (t ∈ movesTbl dim pl s →
      usable dim t = true ∧ t.2 = s.2 + mov_off_y pl ∧
      (t.1 = s.1 - 1 ∨ t.1 = s.1 + 1)) ∧
    (pl = Player.black → s.2 = dim - 1 → movesTbl dim pl s = []) ∧
    (pl = Player.red → s.2 = 0 → movesTbl dim pl s = []) := by
  refine ⟨?_, ?_, ?_⟩
  · intro h
    obtain ⟨-, hu, hx, hy⟩ := of_mem_movesTbl h
    exact ⟨hu, by omega, by omega⟩
  · rintro rfl hrow
    rw [List.eq_nil_iff_forall_not_mem]
    intro u hu
    obtain ⟨-, huu, -, hy⟩ := of_mem_movesTbl hu
    rw [usable_iff] at huu
    simp only [mov_off_y] at hy
    omega
  · rintro rfl hrow
    rw [List.eq_nil_iff_forall_not_mem]
    intro u hu
    obtain ⟨-, huu, -, hy⟩ := of_mem_movesTbl hu
    rw [usable_iff] at huu
    simp only [mov_off_y] at hy
    omega

/-- Witness for C5 at `dim = 8`, BLACK, `s = (1,0)`, `t = (0,1)`. -/
theorem c5_moves_table_one_forward_diagonal_witness :
    usable 8 ((1 : Int), (0 : Int)) = true ∧
    ((((0 : Int), (1 : Int)) ∈ movesTbl 8 Player.black (1, 0) →
      usable 8 ((0 : Int), (1 : Int)) = true ∧
        (1 : Int) = 0 + mov_off_y Player.black ∧
        ((0 : Int) = 1 - 1 ∨ (0 : Int) = 1 + 1)) ∧
    (Player.black = Player.black → (0 : Int) = 8 - 1 →
      movesTbl 8 Player.black (1, 0) = []) ∧
    (Player.black = Player.red → (0 : Int) = 0 →
      movesTbl 8 Player.black (1, 0) = [])) :=
  ⟨by decide, c5_moves_table_one_forward_diagonal 8 Player.black (1, 0) (0, 1) (by decide)⟩

/-- C6: every capture square recorded in the `_captures` dictionary is
exactly the arithmetic midpoint of source and target. -/
theorem c6_capture_square_is_midpoint (dim : Int) (s t c : Pos)
    (h : capturesTbl dim s t = some c) :
    2 * c.1 = s.1 + t.1 ∧ 2 * c.2 = s.2 + t.2 ∧
    c = ((s.1 + t.1) / 2, (s.2 + t.2) / 2) := by
  unfold capturesTbl at h
  split at h
  · next hcond =>
    obtain ⟨-, -, hx, hy⟩ := hcond
    obtain rfl : _ = c := Option.some.inj h
    refine ⟨by simp; omega, by simp; omega, ?_⟩
    rw [Prod.ext_iff]
    constructor <;> simp <;> omega
  · exact absurd h (by simp)

/-- Witness for C6 at `dim = 8`, `s = (1,0)`, `t = (3,2)`, `c = (2,1)`. -/
theorem c6_capture_square_is_midpoint_witness :
    capturesTbl 8 (1, 0) (3, 2) = some ((2 : Int), (1 : Int)) ∧
    (2 * (2 : Int) = 1 + 3 ∧ 2 * (1 : Int) = 0 + 2 ∧
      ((2 : Int), (1 : Int)) = (((1 : Int) + 3) / 2, ((0 : Int) + 2) / 2)) :=
  ⟨by decide, c6_capture_square_is_midpoint 8 (1, 0) (3, 2) (2, 1) (by decide)⟩

/-- C7 counterexample: the claim says each of the four error conditions is
raised as its own distinct exception type.  In the source the invalid-piece
condition (`add_piece` given a non-`Piece`) and the invalid-player condition
(`Piece.__init__` given a bad value) are both raised as the shared base
`ChessException`, not as distinct types. -/
theorem c7_invalid_piece_and_player_share_type :
    errTy (bEmpty.add_piece .nonPiece (1, 0)) = some ExcTy.chess ∧
    errTy (piece_init (.invalid "bogus")) = some ExcTy.chess ∧
    errTy (bEmpty.add_piece .nonPiece (1, 0)) =
      errTy (piece_init (.invalid "bogus")) :=
  ⟨rfl, rfl, rfl⟩

/-- C7 amended: none of the four conditions gets its own distinct,
individually catchable exception type.  The invalid-piece and
invalid-player conditions are both raised as the shared base
`ChessException` (only the invalid-player message names the offender); the
invalid-placement condition raises the built-in `TypeError`, because
formatting the intended message unpacks the tuple location and fails before
`InvalidPlacementException` is constructed; and the invalid-move condition
is never raised at all — every `move` call raises `TypeError` from its
zero-argument validator call.  The two declared subclasses remain distinct
from each other and from the base, but are unreachable. -/
theorem c7_no_distinct_types_raised :
    (∀ (b : Board) (loc : Pos),
      b.add_piece .nonPiece loc = .error canOnlyAddErr) ∧
    canOnlyAddErr.ty = ExcTy.chess ∧
    (∀ s : String, piece_init (.invalid s) =
      .error ⟨ExcTy.chess, "invalid player " ++ s⟩) ∧
    (∀ (b : Board) (pid : Nat) (loc : Pos), b.valid_placement loc = false →
      b.add_piece (.piece pid) loc = .error fmtTypeErr) ∧
    fmtTypeErr.ty = ExcTy.typeError ∧
    (∀ (b : Board) (s t : Pos), (b.move s t).2 = .error typeErrValidMove) ∧
    typeErrValidMove.ty = ExcTy.typeError ∧
    ExcTy.invalidMove ≠ ExcTy.invalidPlacement ∧
    ExcTy.invalidMove ≠ ExcTy.chess ∧
    ExcTy.invalidPlacement ≠ ExcTy.chess := by
  refine ⟨fun _ _ => rfl, rfl, fun _ => rfl, ?_, rfl, fun _ _ _ => rfl, rfl,
    by decide, by decide, by decide⟩
  intro b pid loc hv
  simp [Board.add_piece, hv]

/-- Witness for the amended C7: placing on the unusable square `(0,0)` of
the empty board raises the formatting `TypeError`, not
`InvalidPlacementException`. -/
theorem c7_no_distinct_types_raised_witness :
    bEmpty.valid_placement ((0 : Int), (0 : Int)) = false ∧
    bEmpty.add_piece (.piece 0) ((0 : Int), (0 : Int)) = .error fmtTypeErr :=
  ⟨rfl, c7_no_distinct_types_raised.2.2.2.1 bEmpty 0 (0, 0) rfl⟩

/-- C8: on a board of dimension 8, `start_positions` returns exactly 24
triples: 12 BLACK ones on usable squares of rows 0–2, 12 RED ones on usable
squares of rows 5–7, covering all usable squares of those rows. -/
theorem c8_start_positions_dim8 :
    (start_positions 8).length = 24 ∧
    ((start_positions 8).filter (fun e => decide (e.1 = Player.black))).length = 12 ∧
    ((start_positions 8).filter (fun e => decide (e.1 = Player.red))).length = 12 ∧
    (∀ e ∈ start_positions 8, usable 8 (e.2.1, e.2.2) = true ∧
      (e.1 = Player.black → 0 ≤ e.2.2 ∧ e.2.2 ≤ 2) ∧
      (e.1 = Player.red → 5 ≤ e.2.2 ∧ e.2.2 ≤ 7)) ∧
    (∀ p ∈ usable_positions 8,
      (p.2 ≤ 2 → (Player.black, p.1, p.2) ∈ start_positions 8) ∧
      (5 ≤ p.2 → (Player.red, p.1, p.2) ∈ start_positions 8)) := by
  decide

/-- Witness for C8 instantiating its coverage part at the BLACK corner
square `(1, 0)`. -/
theorem c8_start_positions_dim8_witness :
    (Player.black, (1 : Int), (0 : Int)) ∈ start_positions 8 ∧
    (usable 8 ((1 : Int), (0 : Int)) = true ∧
      (Player.black = Player.black → (0 : Int) ≤ 0 ∧ (0 : Int) ≤ 2) ∧
      (Player.black = Player.red → (5 : Int) ≤ 0 ∧ (0 : Int) ≤ 7)) :=
  ⟨by decide, c8_start_positions_dim8.2.2.2.1 (Player.black, 1, 0) (by decide)⟩

/-- C9: whenever `move(source, target)` fails, the board state after the
call equals the state before it — in the source every raise in `move`
happens before any mutation (indeed the arity `TypeError` precedes
everything), so the state component of the result is the input board. -/
theorem c9_failed_move_preserves_state (b : Board) (s t : Pos) (e : PyErr)
    (h : (b.move s t).2 = .error e) : (b.move s t).1 = b := rfl

/-- Witness for C9 on the empty board. -/
theorem c9_failed_move_preserves_state_witness :
    (bEmpty.move ((0 : Int), (0 : Int)) ((1 : Int), (1 : Int))).2 =
      .error typeErrValidMove ∧
    (bEmpty.move ((0 : Int), (0 : Int)) ((1 : Int), (1 : Int))).1 = bEmpty :=
  ⟨rfl, c9_failed_move_preserves_state bEmpty (0, 0) (1, 1) typeErrValidMove rfl⟩

/-- C10: with an occupied source and empty target, `_valid_move` still is
not total: (a) when `(source, target)` is not a registered jump pair the
lookup `self._captures[(source, target)]` raises `KeyError`; (b) in
particular every destination in the piece's own ordinary-move table raises
that `KeyError` instead of reaching the acceptance step; (c) when the
target is in the piece's jump table but the capture square is empty,
`self[capture].player` raises `AttributeError` instead of returning
`False`. -/
theorem c10_validator_not_total (b : Board) (s t : Pos) (pid : Nat)
    (hs : b.getitem s = some pid) (ht : b.getitem t = none) :
    (capturesTbl b.dim s t = none →
      b.valid_move s t = .error (keyErrAt s t)) ∧
    (t ∈ b.applicable_moves (b.heap pid) s →
      b.valid_move s t = .error (keyErrAt s t)) ∧
    (∀ mid, capturesTbl b.dim s t = some mid →
      t ∈ b.applicable_jumps (b.heap pid) s → b.getitem mid = none →
      b.valid_move s t = .error nonePlayerErr) := by
  refine ⟨?_, ?_, ?_⟩
  · intro hc
    unfold Board.valid_move
    rw [hs, ht, hc]
  · intro hm
    have hc : capturesTbl b.dim s t = none :=
      capturesTbl_eq_none_of_row (applicable_moves_row hm)
    unfold Board.valid_move
    rw [hs, ht, hc]
  · intro mid hc hj hmid
    have hnm : t ∉ b.applicable_moves (b.heap pid) s := by
      intro hm
      rcases applicable_moves_row hm with h1 | h1 <;>
        rcases applicable_jumps_row hj with h2 | h2 <;> omega
    unfold Board.valid_move
    rw [hs, ht, hc]
    simp only [if_neg hnm, if_pos hj, hmid]

/-- Witness for C10: the ordinary forward move `(1,0) → (2,1)` of the lone
BLACK man raises `KeyError` inside `_valid_move`. -/
theorem c10_validator_not_total_witness :
    bBlackOne.getitem ((1 : Int), (0 : Int)) = some 0 ∧
    bBlackOne.getitem ((2 : Int), (1 : Int)) = none ∧
    ((2 : Int), (1 : Int)) ∈
      bBlackOne.applicable_moves (bBlackOne.heap 0) ((1 : Int), (0 : Int)) ∧
    bBlackOne.valid_move (1, 0) (2, 1) = .error (keyErrAt (1, 0) (2, 1)) :=
  ⟨rfl, rfl, by decide,
    (c10_validator_not_total bBlackOne (1, 0) (2, 1) 0 rfl rfl).2.1 (by decide)⟩

end Checkers
